import Mathlib

set_option autoImplicit false

/-!
Shallow embedding of the resilience layer of the benchmark driver:

* `android_world/agents/infer.py` — the two inference-gateway variants
  (`GeminiGcpWrapper` with request pacing, `Gpt4Wrapper` with error-aware
  backoff), modelling the retry/backoff/pacing control flow.  Wall-clock
  time is modelled as an explicit integer clock; the remote backend is
  modelled as a stream of attempt outcomes supplied as a parameter.
* `android_world/env/ui_tree_wrapper.py` — the observation recovery layer
  (`get_a11y_tree` polling and `UITreeWrapper.get_a11y_forest`
  reconnect-once logic).  The extras buffer is modelled as a stream of
  poll outcomes.
* `benchmark_run.py` — the episode driver loop, its action normalization
  table, its log shaping, its exit-code selection, and the first-write-wins
  error logger.  Side effects (screenshot files, wall-clock elapsed times)
  are outside the embedding; the agent is modelled as a stream of per-step
  outcomes.
-/

/-! ## infer.py: sentinel and retry-budget clamping -/

/-- Sentinel failure text `ERROR_CALLING_LLM` from `infer.py` line 30. -/
def ERROR_CALLING_LLM : String := "Error calling LLM"

/-- Retry budget computed by `GeminiGcpWrapper.__init__` (`infer.py`
lines 103-106): a non-positive `max_retry` is reset to 3, then the result
is clamped to at most 5.  The constructor performs no other validation of
this argument, so the model is a total function. -/
def GeminiGcpWrapper.effective_max_retry (max_retry : Int) : Int :=
  let m := if max_retry ≤ 0 then 3 else max_retry
  min m 5

/-- Retry budget computed by `Gpt4Wrapper.__init__` (`infer.py`
lines 162-165); the code is identical to the Gemini variant's. -/
def Gpt4Wrapper.effective_max_retry (max_retry : Int) : Int :=
  let m := if max_retry ≤ 0 then 3 else max_retry
  min m 5

/-! ## infer.py: Gpt4Wrapper.predict_mm retry loop -/

/-- Fixed base backoff delay `RETRY_WAITING_SECONDS` (`infer.py` line 151). -/
def Gpt4Wrapper.RETRY_WAITING_SECONDS : Nat := 20

/-- Classification of one remote request in `Gpt4Wrapper.predict_mm`
(`infer.py` lines 211-233), as seen by the control flow:

* `okChoices content raw`: `response.ok` holds and `choices` is present —
  the success branch returns `(content, response)`; `raw` abstracts the
  opaque response object.
* `errorMessage`: the response arrives but is not a success
  (non-2xx or no `choices`), and `response.json()['error']['message']`
  is extractable, so the `print` on lines 221-224 does not raise.
* `raisedException`: the attempt raises (network failure, malformed JSON
  body making the error-message extraction raise, etc.), landing in the
  `except` branch on line 227. -/
inductive Gpt4AttemptOutcome where
  | okChoices (content : String) (raw : Nat)
  | errorMessage
  | raisedException
  deriving DecidableEq

/-- Observable result of running the `while counter > 0` loop of
`Gpt4Wrapper.predict_mm` for at most `fuel` iterations.  `finished = none`
means the loop was still running after `fuel` iterations (each iteration
makes exactly one remote call).  `calls` counts remote calls made and
`sleeps` records the argument of each `time.sleep`. -/
structure Gpt4RunResult where
  finished : Option (String × Option Nat)
  calls : Nat
  sleeps : List Nat
  deriving DecidableEq

/-- The `while counter > 0` loop of `Gpt4Wrapper.predict_mm` (`infer.py`
lines 211-234).  `outcomes k` is the behavior of the (k+1)-th remote call.
Mirrors the source: a success returns immediately; the `errorMessage`
branch sleeps `wait_seconds` and doubles it but does **not** decrement
`counter`; the exception branch sleeps `wait_seconds`, doubles it, and
decrements `counter`.  When `counter` reaches 0 the loop exits and the
sentinel `(ERROR_CALLING_LLM, None)` is returned.  `fuel` bounds the
number of loop iterations observed (the source has no such bound). -/
def Gpt4Wrapper.predict_mm_loop (outcomes : Nat → Gpt4AttemptOutcome) :
    (fuel counter wait calls : Nat) → (sleeps : List Nat) → Gpt4RunResult
  | _, 0, _, calls, sleeps => ⟨some (ERROR_CALLING_LLM, none), calls, sleeps⟩
  | 0, _ + 1, _, calls, sleeps => ⟨none, calls, sleeps⟩
  | fuel + 1, counter + 1, wait, calls, sleeps =>
    match outcomes calls with
    | .okChoices content raw => ⟨some (content, some raw), calls + 1, sleeps⟩
    | .errorMessage =>
        Gpt4Wrapper.predict_mm_loop outcomes fuel (counter + 1) (wait * 2)
          (calls + 1) (sleeps ++ [wait])
    | .raisedException =>
        Gpt4Wrapper.predict_mm_loop outcomes fuel counter (wait * 2)
          (calls + 1) (sleeps ++ [wait])

/-- Entry point of `Gpt4Wrapper.predict_mm` for a wrapper constructed with
argument `max_retry`: runs the retry loop with `counter = self.max_retry`
and `wait_seconds = RETRY_WAITING_SECONDS`. -/
def Gpt4Wrapper.predict_mm (max_retry : Int) (outcomes : Nat → Gpt4AttemptOutcome)
    (fuel : Nat) : Gpt4RunResult :=
  Gpt4Wrapper.predict_mm_loop outcomes fuel
    (Gpt4Wrapper.effective_max_retry max_retry).toNat
    Gpt4Wrapper.RETRY_WAITING_SECONDS 0 []

/-! ## infer.py: GeminiGcpWrapper.predict_mm pacing loop -/

/-- Minimum interval between requests, `TIME_BETWEEN_REQUESTS`
(`infer.py` line 85). -/
def GeminiGcpWrapper.TIME_BETWEEN_REQUESTS : Int := 15

/-- Mutable per-instance state of `GeminiGcpWrapper` relevant to pacing:
the current wall clock and `self.time_of_last_request`. -/
structure GeminiGcpWrapper.State where
  clock : Int
  time_of_last_request : Int
  deriving DecidableEq

/-- Behavior of one `generate_content` attempt: how far the wall clock
advances while the call runs, and whether the call (or the `output.text`
access) raises. -/
structure GeminiGcpWrapper.Attempt where
  duration : Int
  fails : Bool

/-- The `while counter > 0` loop of `GeminiGcpWrapper.predict_mm`
(`infer.py` lines 118-137).  Before each attempt the code sleeps until at
least `TIME_BETWEEN_REQUESTS` has elapsed since `time_of_last_request`
(so the request is issued at `max clock (time_of_last_request + 15)`),
records the issue time into `time_of_last_request`, and issues the
request.  On an exception, `counter` is decremented and, if budget
remains, the code sleeps `retry_delay` and doubles it.  Returns whether a
success was returned, the final state, and the list of times at which
remote requests were issued. -/
def GeminiGcpWrapper.predict_mm_loop (attempts : Nat → GeminiGcpWrapper.Attempt) :
    (counter : Nat) → (retry_delay : Int) → (idx : Nat) →
    GeminiGcpWrapper.State → Bool × GeminiGcpWrapper.State × List Int
  | 0, _, _, s => (false, s, [])
  | counter + 1, retry_delay, idx, s =>
    let issueTime := max s.clock (s.time_of_last_request + GeminiGcpWrapper.TIME_BETWEEN_REQUESTS)
    let a := attempts idx
    let s1 : GeminiGcpWrapper.State :=
      { clock := issueTime + a.duration, time_of_last_request := issueTime }
    if a.fails then
      let s2 : GeminiGcpWrapper.State :=
        if 0 < counter then { s1 with clock := s1.clock + retry_delay } else s1
      let rd2 := if 0 < counter then retry_delay * 2 else retry_delay
      let rest := GeminiGcpWrapper.predict_mm_loop attempts counter rd2 (idx + 1) s2
      (rest.1, rest.2.1, issueTime :: rest.2.2)
    else
      (true, s1, [issueTime])

/-- One call to `GeminiGcpWrapper.predict_mm` on an instance whose
constructor received `max_retry`: `counter = self.max_retry`,
`retry_delay = TIME_BETWEEN_REQUESTS`. -/
def GeminiGcpWrapper.predict_mm (attempts : Nat → GeminiGcpWrapper.Attempt)
    (max_retry : Int) (s : GeminiGcpWrapper.State) :
    Bool × GeminiGcpWrapper.State × List Int :=
  GeminiGcpWrapper.predict_mm_loop attempts
    (GeminiGcpWrapper.effective_max_retry max_retry).toNat
    GeminiGcpWrapper.TIME_BETWEEN_REQUESTS 0 s

/-- A sequence of `predict_mm` calls on the same instance:
`self.time_of_last_request` persists across calls.  Returns the final
state and the concatenated list of request issue times. -/
def GeminiGcpWrapper.runCalls (calls : List (Nat → GeminiGcpWrapper.Attempt))
    (max_retry : Int) (s : GeminiGcpWrapper.State) :
    GeminiGcpWrapper.State × List Int :=
  match calls with
  | [] => (s, [])
  | c :: rest =>
      let r1 := GeminiGcpWrapper.predict_mm c max_retry s
      let r2 := GeminiGcpWrapper.runCalls rest max_retry r1.2.1
      (r2.1, r1.2.2 ++ r2.2)

/-- Issue times spaced at least `TIME_BETWEEN_REQUESTS` apart, with the
first one at least that far after `t`. -/
def GeminiGcpWrapper.SpacedFrom (t : Int) : List Int → Prop
  | [] => True
  | a :: l => t + GeminiGcpWrapper.TIME_BETWEEN_REQUESTS ≤ a ∧ GeminiGcpWrapper.SpacedFrom a l

/-! ## ui_tree_wrapper.py: polling and reconnect-once -/

/-- Outcome of one read of
`env.accumulate_new_extras()['accessibility_tree'][-1]`
(`ui_tree_wrapper.py` line 91):

* `available f`: the key is present with a nonempty list; the last
  snapshot `f` is returned (`f` abstracts the forest payload).
* `missingKey`: the key is absent — `KeyError`, caught on line 93, so
  the loop sleeps and retries.
* `emptyList`: the key is present but its list is empty — `IndexError`,
  which the `except KeyError` clause does not catch. -/
inductive ExtrasResult where
  | available (forest : Nat)
  | missingKey
  | emptyList
  deriving DecidableEq

/-- Exceptions that can escape `get_a11y_tree`. -/
inductive A11yError where
  | runtimeError
  | indexError
  deriving DecidableEq

deriving instance DecidableEq for Except

/-- The `for _ in range(max_retries)` polling loop of `get_a11y_tree`
(`ui_tree_wrapper.py` lines 89-98).  `polls i` is the outcome of the
(i+1)-th poll of this polling sequence.  Returns the result together with
the number of polls performed.  Since the only assignment to `forest` is
immediately followed by `return`, `forest` is still `None` when the loop
exhausts, so exhaustion always raises
`RuntimeError('Could not get a11y tree.')`.  An `IndexError` escapes the
loop body at once (only `KeyError` is caught). -/
def get_a11y_tree_loop (polls : Nat → ExtrasResult) :
    (i remaining : Nat) → Except A11yError Nat × Nat
  | _, 0 => (.error .runtimeError, 0)
  | i, remaining + 1 =>
    match polls i with
    | .available f => (.ok f, 1)
    | .emptyList => (.error .indexError, 1)
    | .missingKey =>
        let r := get_a11y_tree_loop polls (i + 1) remaining
        (r.1, r.2 + 1)

/-- `get_a11y_tree(env, max_retries, sleep_duration)` restricted to its
polling behavior (`ui_tree_wrapper.py` lines 54-99).  The wrapper check
on line 72 and the airplane-mode probe on lines 77-84 only touch
networking side effects and raise no exception relevant to the claims,
so they are outside the embedding; sleeping between polls does not
affect the result either. -/
def get_a11y_tree (polls : Nat → ExtrasResult) (max_retries : Nat) :
    Except A11yError Nat × Nat :=
  get_a11y_tree_loop polls 0 max_retries

/-- Observable behavior of one `UITreeWrapper.get_a11y_forest` call:
the final result, how many polls the first polling sequence performed,
whether `refresh_env` (a session reconnect) ran, and how many polls the
second polling sequence performed (0 if there was none). -/
structure CaptureResult where
  result : Except A11yError Nat
  polls_first : Nat
  reconnected : Bool
  polls_second : Nat
  deriving DecidableEq

/-- `UITreeWrapper.get_a11y_forest` (`ui_tree_wrapper.py` lines 184-196):
call `get_a11y_tree`; only on `RuntimeError` reconnect via `refresh_env`
and call `get_a11y_tree` once more, whose outcome (success or exception)
is final.  `polls1` is the extras stream before the reconnect and
`polls2` the stream of the rebuilt session. -/
def get_a11y_forest (polls1 polls2 : Nat → ExtrasResult) : CaptureResult :=
  let r1 := get_a11y_tree polls1 5
  match r1.1 with
  | .error .runtimeError =>
      let r2 := get_a11y_tree polls2 5
      ⟨r2.1, r1.2, true, r2.2⟩
  | r => ⟨r, r1.2, false, 0⟩

/-! ## benchmark_run.py: action normalization -/

/-- The `detail` field of an action log entry: either a literal string or
the coordinate list taken from `response.data['actual_action_coordinates']`. -/
inductive Detail where
  | str (s : String)
  | coords (c : List Int)
  deriving DecidableEq, Inhabited

/-- The normalized action pair `action_log` built by `benchmark_run.py`
lines 94-139: `[action_type, {"detail_type": ..., "detail": ...}]`. -/
structure ActionLog where
  action_type : String
  detail_type : String
  detail : Detail
  deriving DecidableEq, Inhabited

/-- The grounded action `response.data[grounded_action_key]`: either a
literal string token (`type(converted_action) is str`) or a structured
action carrying an `action_type` tag and the fields the normalization
table reads (`text` for input_text, `app_name` for open_app, `direction`
for scroll). -/
inductive GroundedAction where
  | strToken (s : String)
  | structured (action_type text app_name direction : String)
  deriving DecidableEq

/-- The action normalization of `benchmark_run.py` lines 94-139, as a
function of the grounded action and
`response.data['actual_action_coordinates']`.  `action_log` starts as
`["", {"detail_type": "string", "detail": ""}]`; a string-typed grounded
action sets `action_type = 'wait'` and leaves the defaults; otherwise the
tag dispatch runs.  `none` models a raised exception (the `x, y, _, _`
destructuring on lines 129 and 134 raising `ValueError`), which the
enclosing handler turns into a log error. -/
def normalize_action (converted_action : GroundedAction)
    (actual_action_coordinates : List Int) : Option ActionLog :=
  match converted_action with
  | .strToken _ => some ⟨"wait", "string", .str ""⟩
  | .structured t text app dir =>
    if t = "click" then some ⟨t, "coordinates", .coords actual_action_coordinates⟩
    else if t = "double_tap" then some ⟨t, "coordinates", .coords actual_action_coordinates⟩
    else if t = "input_text" then
      some ⟨t, "string", .str ("The text \"" ++ text ++ "\" has been inputted.")⟩
    else if t = "keyboard_enter" then some ⟨t, "string", .str ""⟩
    else if t = "long_press" then some ⟨t, "coordinates", .coords actual_action_coordinates⟩
    else if t = "navigate_back" then some ⟨t, "string", .str "Back to the previous page."⟩
    else if t = "navigate_home" then some ⟨t, "string", .str "Return to home page."⟩
    else if t = "open_app" then some ⟨t, "string", .str app⟩
    else if t = "scroll" then
      match actual_action_coordinates with
      | [x, y, _, _] =>
          some ⟨t, "string", .str ("The coordinates (" ++ toString x ++ "," ++ toString y
            ++ ") have been swiped to the " ++ dir ++ ".")⟩
      | _ => none
    else if t = "status" then some ⟨t, "string", .str "Task completed."⟩
    else if t = "swipe" then
      match actual_action_coordinates with
      | [x1, y1, x2, y2] =>
          some ⟨t, "string", .str ("The swipe action has been performed starting from coordinates ("
            ++ toString x1 ++ "," ++ toString y1 ++ ") to (" ++ toString x2 ++ "," ++ toString y2 ++ ").")⟩
      | _ => none
    else some ⟨"wait", "string", .str "No action has been taken."⟩

/-- The eleven tags handled by a dedicated branch of the normalization
table (`benchmark_run.py` lines 109-135); every other tag falls into the
`else` bucket on lines 136-138. -/
def recognizedTags : List String :=
  ["click", "double_tap", "input_text", "keyboard_enter", "long_press",
   "navigate_back", "navigate_home", "open_app", "scroll", "status", "swipe"]

/-! ## benchmark_run.py: episode loop, log shaping, exit codes -/

/-- One entry of `benchmark_log`: a per-step record (`benchmark_run.py`
lines 148-153; the agent-specific `log_keys` payloads are opaque to the
control flow and omitted) or the trailing summary record (lines 168-172;
the wall-clock `elapsed_time_initial` / `elapsed_time_exec` fields are
real-time measurements outside the embedding). -/
inductive LogEntry where
  | step (stepIdx prompt_tokens completion_tokens : Nat) (action : ActionLog)
  | summary (total_steps finish_signal total_prompt_tokens total_completion_tokens : Nat)
  deriving DecidableEq

/-- Behavior of one loop iteration of `benchmark_run.py` as seen by its
two exception handlers:

* `stepError`: `agent.step` raised (caught on line 85, `error_code = 2`).
* `logError`: some statement of the log-handling block on lines 89-156
  raised (screenshot saving, the coordinate destructuring in the
  normalization, token accounting, ...), caught on line 158
  (`error_code = 1`).  No step entry is appended in this case: every
  exception in that block occurs before or while building the entry that
  `benchmark_log.append` receives.
* `ok done pt ct action`: the step was handled, appending a step entry
  with the given token counts and normalized action; `done` is
  `response.done`. -/
inductive StepOutcome where
  | stepError
  | logError
  | ok (done : Bool) (prompt_tokens completion_tokens : Nat) (action : ActionLog)
  deriving DecidableEq

/-- The driver's mutable locals (`benchmark_run.py` lines 74-82):
`is_done`, `error_code`, `benchmark_log`, the token totals, and the loop
variable `action_cnt` (which in Python persists after the loop; it is 0
here before the first iteration, a state the code never reads as long as
`max_rounds ≥ 1`). -/
structure RunState where
  is_done : Bool
  error_code : Nat
  benchmark_log : List LogEntry
  total_prompt_tokens : Nat
  total_completion_tokens : Nat
  action_cnt : Nat
  deriving DecidableEq

/-- Initial driver state (`benchmark_run.py` lines 74-78). -/
def initState : RunState :=
  ⟨false, 0, [], 0, 0, 0⟩

/-- The `for action_cnt in range(1, args.max_rounds + 1)` loop
(`benchmark_run.py` lines 82-161).  `remaining` is the number of loop
iterations left and `cnt` the current value of `action_cnt`; `beh i`
gives the outcome of step `i`.  A step error or log error records the
error code and breaks; a completed step appends its entry and its token
counts and breaks if `response.done`. -/
def step_loop (beh : Nat → StepOutcome) :
    (remaining cnt : Nat) → RunState → RunState
  | 0, _, s => s
  | remaining + 1, cnt, s =>
    let s0 := { s with action_cnt := cnt }
    match beh cnt with
    | .stepError => { s0 with error_code := 2 }
    | .logError => { s0 with error_code := 1 }
    | .ok done pt ct action =>
      let s1 := { s0 with
        benchmark_log := s0.benchmark_log ++ [.step cnt pt ct action],
        total_prompt_tokens := s0.total_prompt_tokens + pt,
        total_completion_tokens := s0.total_completion_tokens + ct }
      if done then { s1 with is_done := true }
      else step_loop beh remaining (cnt + 1) s1

/-- Observable outcome of one run of `benchmark_run.py`: the contents
written to `log.json`, the `sys.exit` code, and (for stating invariants)
the final `error_code`, `is_done`, and `action_cnt` locals. -/
structure RunResult where
  benchmark_log : List LogEntry
  exit_code : Nat
  error_code : Nat
  is_done : Bool
  final_action_cnt : Nat
  deriving DecidableEq

/-- The run tail of `benchmark_run.py` (lines 82-188): run the step loop,
append the summary entry (`total_steps = action_cnt - 1`,
`finish_signal = int(is_done)`, token totals), write `log.json` once,
then select the exit code: `error_code` if it is in `[2, 3]`, else 0 if
`is_done`, else 4 if `action_cnt == max_rounds`, else 1. -/
def run_benchmark (beh : Nat → StepOutcome) (max_rounds : Nat) : RunResult :=
  let s := step_loop beh max_rounds 1 initState
  let log := s.benchmark_log ++
    [.summary (s.action_cnt - 1) (if s.is_done then 1 else 0)
      s.total_prompt_tokens s.total_completion_tokens]
  let exit :=
    if s.error_code = 2 ∨ s.error_code = 3 then s.error_code
    else if s.is_done then 0
    else if s.action_cnt = max_rounds then 4
    else 1
  ⟨log, exit, s.error_code, s.is_done, s.action_cnt⟩

/-- First stopping event of the loop, if any: scanning steps
`cnt, cnt+1, ...` for `remaining` iterations, the first step whose
outcome breaks the loop (a step error, a log error, or a completed step
with `done = true`), paired with its index. -/
def first_stop (beh : Nat → StepOutcome) :
    (remaining cnt : Nat) → Option (Nat × StepOutcome)
  | 0, _ => none
  | remaining + 1, cnt =>
    match beh cnt with
    | .stepError => some (cnt, .stepError)
    | .logError => some (cnt, .logError)
    | .ok done pt ct a =>
        if done then some (cnt, .ok done pt ct a)
        else first_stop beh remaining (cnt + 1)

/-- The step entry the loop would append for step `i` (used to state the
log-shape invariant; only meaningful when `beh i` is an `ok` outcome). -/
def mk_step_entry (beh : Nat → StepOutcome) (i : Nat) : LogEntry :=
  match beh i with
  | .ok _ pt ct a => .step i pt ct a
  | _ => .step i 0 0 default

/-- Prompt-token count of step `i` (0 for a non-`ok` outcome). -/
def step_pt (beh : Nat → StepOutcome) (i : Nat) : Nat :=
  match beh i with
  | .ok _ pt _ _ => pt
  | _ => 0

/-- Completion-token count of step `i` (0 for a non-`ok` outcome). -/
def step_ct (beh : Nat → StepOutcome) (i : Nat) : Nat :=
  match beh i with
  | .ok _ _ ct _ => ct
  | _ => 0

/-- Whether a step outcome is a successfully handled step. -/
def StepOutcome.isOk : StepOutcome → Bool
  | .ok _ _ _ _ => true
  | _ => false

/-! ## benchmark_run.py: error logger -/

/-- `print_and_log_error` (`benchmark_run.py` lines 29-37) acting on the
contents of `<output_dir>/error.json`, modelled as `none` when the file
does not exist and `some msgs` when it holds the array
`[{"error_message": m} for m in msgs]`: the file is created with the
one-element array on the first call and left untouched when it already
exists. -/
def print_and_log_error (error_message : String) :
    Option (List String) → Option (List String)
  | none => some [error_message]
  | some contents => some contents

/-! ## Concrete inputs used by witnesses and counterexamples -/

/-- Backend whose every attempt yields a non-2xx response with an
extractable error message. -/
def allErrorMessage : Nat → Gpt4AttemptOutcome := fun _ => .errorMessage

/-- Backend whose every attempt raises. -/
def allRaise : Nat → Gpt4AttemptOutcome := fun _ => .raisedException

/-- Extras stream that misses twice and then has a snapshot. -/
def pollsHitThird : Nat → ExtrasResult :=
  fun i => if i < 2 then .missingKey else .available 7

/-- Extras stream that never has a snapshot. -/
def pollsAllMiss : Nat → ExtrasResult := fun _ => .missingKey

/-- Extras stream with a present-but-empty `accessibility_tree` entry on
the second poll. -/
def pollsEmptySecond : Nat → ExtrasResult :=
  fun i => if i < 1 then .missingKey else .emptyList

/-- A normalized action value used in concrete runs. -/
def waitAction : ActionLog := ⟨"wait", "string", .str ""⟩

/-- Agent behavior for the C1 scenario: step 1 completes without a done
signal, step 2 completes and signals completion. -/
def behDoneAt2 : Nat → StepOutcome :=
  fun i => if i = 1 then .ok false 11 5 waitAction else .ok true 7 3 waitAction

/-- Agent behavior raising a log-handling error on every step. -/
def behLogError : Nat → StepOutcome := fun _ => .logError

/-- Agent behavior completing every step without a done signal. -/
def behNeverDone : Nat → StepOutcome := fun _ => .ok false 1 1 waitAction

/-! ## Theorems -/

/-- C6: for both gateway constructors and every integer `max_retry`
argument, the effective retry budget is 3 when `max_retry ≤ 0`, is
clamped to 5 when `max_retry > 5`, and equals `max_retry` otherwise;
moreover it always lies in `[1, 5]` for both wrappers, and the clamping
is a total function of the argument (the constructors raise only for a
missing credential, which is a separate check). -/
theorem effective_max_retry_clamping (m : Int) :
    (m ≤ 0 → GeminiGcpWrapper.effective_max_retry m = 3 ∧
      Gpt4Wrapper.effective_max_retry m = 3) ∧
    (5 < m → GeminiGcpWrapper.effective_max_retry m = 5 ∧
      Gpt4Wrapper.effective_max_retry m = 5) ∧
    (0 < m → m ≤ 5 → GeminiGcpWrapper.effective_max_retry m = m ∧
      Gpt4Wrapper.effective_max_retry m = m) ∧
    (1 ≤ GeminiGcpWrapper.effective_max_retry m ∧
      GeminiGcpWrapper.effective_max_retry m ≤ 5 ∧
      1 ≤ Gpt4Wrapper.effective_max_retry m ∧
      Gpt4Wrapper.effective_max_retry m ≤ 5) := by
  simp only [GeminiGcpWrapper.effective_max_retry, Gpt4Wrapper.effective_max_retry, min_def]
  split_ifs <;> omega

/-- Witness for C6 at the concrete input `max_retry = -2`: the budget is
silently corrected to the default 3 in both wrappers. -/
theorem effective_max_retry_clamping_witness :
    GeminiGcpWrapper.effective_max_retry (-2) = 3 ∧
      Gpt4Wrapper.effective_max_retry (-2) = 3 :=
  (effective_max_retry_clamping (-2)).1 (by decide)

/-- Exhaustion lemma for the Gpt4 retry loop: if every remote call
raises, the loop makes exactly `counter` further calls, sleeping
`wait * 2 ^ k` after the k-th of them, and returns the sentinel. -/
theorem gpt4_loop_raise_exhausts (outcomes : Nat → Gpt4AttemptOutcome)
    (hout : ∀ k, outcomes k = .raisedException) :
    ∀ counter fuel wait calls sleeps, counter ≤ fuel →
      Gpt4Wrapper.predict_mm_loop outcomes fuel counter wait calls sleeps =
        ⟨some (ERROR_CALLING_LLM, none), calls + counter,
          sleeps ++ (List.range counter).map (fun k => wait * 2 ^ k)⟩ := by
  intro counter
  induction counter with
  | zero =>
      intro fuel wait calls sleeps _
      cases fuel <;> simp [Gpt4Wrapper.predict_mm_loop]
  | succ n ih =>
      intro fuel wait calls sleeps hle
      obtain ⟨f, rfl⟩ : ∃ f, fuel = f + 1 := ⟨fuel - 1, by omega⟩
      simp only [Gpt4Wrapper.predict_mm_loop, hout calls]
      rw [ih f (wait * 2) (calls + 1) (sleeps ++ [wait]) (by omega)]
      simp only [Gpt4RunResult.mk.injEq]
      refine ⟨trivial, by omega, ?_⟩
      have hfun : ((fun k => wait * 2 ^ k) ∘ Nat.succ) = fun k => wait * 2 * 2 ^ k := by
        funext k
        simp only [Function.comp_apply, pow_succ]
        ring
      rw [List.range_succ_eq_map, List.map_cons, List.map_map, hfun]
      simp [List.append_assoc]

/-- C2 (amended): for every `max_retry` and every backend whose every
attempt fails by a raised exception, `Gpt4Wrapper.predict_mm` makes
exactly the effective retry budget number of remote calls (no more, no
fewer), sleeps `20 * 2 ^ (k-1)` seconds after the k-th failed attempt
(so the delay doubles from the fixed 20 s base between attempts, with
one final sleep after the last attempt), and returns the sentinel
`('Error calling LLM', None)` instead of raising.  An attempt that fails
with a non-2xx/malformed response from which an error message is
extractable sleeps on the same doubling schedule but does not consume
retry budget, so a backend that always fails that way is retried without
bound and the sentinel is never reached (see the counterexample). -/
theorem gpt4_predict_mm_exception_budget (max_retry : Int)
    (outcomes : Nat → Gpt4AttemptOutcome) (fuel : Nat)
    (hout : ∀ k, outcomes k = .raisedException)
    (hfuel : (Gpt4Wrapper.effective_max_retry max_retry).toNat ≤ fuel) :
    Gpt4Wrapper.predict_mm max_retry outcomes fuel =
      ⟨some (ERROR_CALLING_LLM, none),
        (Gpt4Wrapper.effective_max_retry max_retry).toNat,
        (List.range (Gpt4Wrapper.effective_max_retry max_retry).toNat).map
          (fun k => Gpt4Wrapper.RETRY_WAITING_SECONDS * 2 ^ k)⟩ := by
  unfold Gpt4Wrapper.predict_mm
  rw [gpt4_loop_raise_exhausts outcomes hout _ fuel _ 0 [] hfuel]
  simp

/-- Witness for C2 at `max_retry = 3` and an always-raising backend:
exactly 3 calls, sleeps 20, 40, 80, then the sentinel. -/
theorem gpt4_predict_mm_exception_budget_witness :
    Gpt4Wrapper.predict_mm 3 allRaise 3 =
      ⟨some (ERROR_CALLING_LLM, none), 3, [20, 40, 80]⟩ := by
  have h := gpt4_predict_mm_exception_budget 3 allRaise 3 (fun _ => rfl) (by decide)
  exact h.trans (by decide)

/-- C2 counterexample: with effective retry budget 3 and a backend whose
every attempt fails with a non-2xx response carrying an extractable
error message, the loop has made 10 remote calls — more than the budget —
and has still not returned the sentinel, because that branch never
decrements `counter` (`infer.py` lines 219-226). -/
theorem gpt4_predict_mm_error_response_counterexample :
    (Gpt4Wrapper.predict_mm 3 allErrorMessage 10).calls = 10 ∧
    (Gpt4Wrapper.predict_mm 3 allErrorMessage 10).finished = none := by
  decide

/-- C9: the error logger is first-write-wins and idempotent — starting
from an absent `error.json`, the first call creates the one-element array
holding its message, and any sequence of later calls (with any messages)
leaves the contents unchanged. -/
theorem error_log_first_write_wins (m : String) (later : List String) :
    List.foldl (fun fs msg => print_and_log_error msg fs)
      (print_and_log_error m none) later = some [m] := by
  show List.foldl (fun fs msg => print_and_log_error msg fs) (some [m]) later = some [m]
  induction later with
  | nil => rfl
  | cons x xs ih => exact ih

/-- Weakening the lower bound of a spaced issue-time list. -/
theorem spacedFrom_mono (t u : Int) (l : List Int)
    (h : GeminiGcpWrapper.SpacedFrom u l) (htu : t ≤ u) :
    GeminiGcpWrapper.SpacedFrom t l := by
  cases l with
  | nil => trivial
  | cons a l =>
      refine ⟨?_, h.2⟩
      have := h.1
      simp only [GeminiGcpWrapper.TIME_BETWEEN_REQUESTS] at *
      omega

/-- Gluing two spaced issue-time lists: if every time of the first is at
most `u` and the second is spaced from `u`, the concatenation is spaced. -/
theorem spacedFrom_append (t u : Int) (l1 l2 : List Int)
    (h1 : GeminiGcpWrapper.SpacedFrom t l1) (hb : ∀ x ∈ l1, x ≤ u)
    (h2 : GeminiGcpWrapper.SpacedFrom u l2) (htu : t ≤ u) :
    GeminiGcpWrapper.SpacedFrom t (l1 ++ l2) := by
  induction l1 generalizing t with
  | nil => exact spacedFrom_mono t u l2 h2 htu
  | cons a l1 ih =>
      refine ⟨h1.1, ?_⟩
      exact ih a h1.2 (fun x hx => hb x (List.mem_cons_of_mem a hx))
        (hb a (List.mem_cons_self a l1))

/-- A spaced issue-time list has every adjacent pair at least
`TIME_BETWEEN_REQUESTS` apart. -/
theorem spacedFrom_chain (t : Int) (l : List Int)
    (h : GeminiGcpWrapper.SpacedFrom t l) :
    List.Chain' (fun a b => a + GeminiGcpWrapper.TIME_BETWEEN_REQUESTS ≤ b) l := by
  induction l generalizing t with
  | nil => exact List.chain'_nil
  | cons a l ih =>
      cases l with
      | nil => simp
      | cons b l =>
          exact List.Chain'.cons h.2.1 (ih a h.2)

/-- Pacing invariant of one `predict_mm` call: the issue times it
produces are spaced starting from the incoming `time_of_last_request`,
the `time_of_last_request` field never decreases, and every issue time is
at most the outgoing `time_of_last_request`. -/
theorem gemini_loop_spaced (attempts : Nat → GeminiGcpWrapper.Attempt) :
    ∀ (counter : Nat) (retry_delay : Int) (idx : Nat) (s : GeminiGcpWrapper.State),
      GeminiGcpWrapper.SpacedFrom s.time_of_last_request
        (GeminiGcpWrapper.predict_mm_loop attempts counter retry_delay idx s).2.2 ∧
      s.time_of_last_request ≤
        (GeminiGcpWrapper.predict_mm_loop attempts counter retry_delay idx s).2.1.time_of_last_request ∧
      ∀ x ∈ (GeminiGcpWrapper.predict_mm_loop attempts counter retry_delay idx s).2.2,
        x ≤ (GeminiGcpWrapper.predict_mm_loop attempts counter retry_delay idx s).2.1.time_of_last_request := by
  intro counter
  induction counter with
  | zero =>
      intro retry_delay idx s
      refine ⟨trivial, le_refl _, ?_⟩
      intro x hx
      simp [GeminiGcpWrapper.predict_mm_loop] at hx
  | succ n ih =>
      intro retry_delay idx s
      simp only [GeminiGcpWrapper.predict_mm_loop]
      set issueTime := max s.clock
        (s.time_of_last_request + GeminiGcpWrapper.TIME_BETWEEN_REQUESTS) with hissue
      have hfloor : s.time_of_last_request + GeminiGcpWrapper.TIME_BETWEEN_REQUESTS ≤ issueTime :=
        le_max_right _ _
      have hpos : (0 : Int) < GeminiGcpWrapper.TIME_BETWEEN_REQUESTS := by decide
      cases hf : (attempts idx).fails
      · simp only [hf, Bool.false_eq_true, if_false]
        refine ⟨⟨hfloor, trivial⟩, by omega, ?_⟩
        intro x hx
        simp only [List.mem_singleton] at hx
        omega
      · simp only [hf, if_true]
        by_cases hc : 0 < n
        · simp only [hc, if_true]
          obtain ⟨hsp, hmono, hbound⟩ := ih (retry_delay * 2) (idx + 1)
            ⟨issueTime + (attempts idx).duration + retry_delay, issueTime⟩
          refine ⟨⟨hfloor, hsp⟩, by simp at hmono ⊢; omega, ?_⟩
          intro x hx
          simp only [List.mem_cons] at hx
          rcases hx with rfl | hx
          · simpa using hmono
          · simpa using hbound x hx
        · simp only [hc, if_false]
          obtain ⟨hsp, hmono, hbound⟩ := ih retry_delay (idx + 1)
            ⟨issueTime + (attempts idx).duration, issueTime⟩
          refine ⟨⟨hfloor, hsp⟩, by simp at hmono ⊢; omega, ?_⟩
          intro x hx
          simp only [List.mem_cons] at hx
          rcases hx with rfl | hx
          · simpa using hmono
          · simpa using hbound x hx

/-- Pacing invariant across a sequence of `predict_mm` calls on the same
instance. -/
theorem gemini_runCalls_spaced (max_retry : Int) :
    ∀ (calls : List (Nat → GeminiGcpWrapper.Attempt)) (s : GeminiGcpWrapper.State),
      GeminiGcpWrapper.SpacedFrom s.time_of_last_request
        (GeminiGcpWrapper.runCalls calls max_retry s).2 ∧
      s.time_of_last_request ≤
        (GeminiGcpWrapper.runCalls calls max_retry s).1.time_of_last_request ∧
      ∀ x ∈ (GeminiGcpWrapper.runCalls calls max_retry s).2,
        x ≤ (GeminiGcpWrapper.runCalls calls max_retry s).1.time_of_last_request := by
  intro calls
  induction calls with
  | nil =>
      intro s
      refine ⟨trivial, le_refl _, ?_⟩
      intro x hx
      simp [GeminiGcpWrapper.runCalls] at hx
  | cons c rest ih =>
      intro s
      obtain ⟨hsp1, hmono1, hbound1⟩ := gemini_loop_spaced c
        (GeminiGcpWrapper.effective_max_retry max_retry).toNat
        GeminiGcpWrapper.TIME_BETWEEN_REQUESTS 0 s
      obtain ⟨hsp2, hmono2, hbound2⟩ :=
        ih (GeminiGcpWrapper.predict_mm c max_retry s).2.1
      simp only [GeminiGcpWrapper.predict_mm] at hsp2 hmono2 hbound2
      simp only [GeminiGcpWrapper.runCalls, GeminiGcpWrapper.predict_mm]
      refine ⟨?_, ?_, ?_⟩
      · exact spacedFrom_append _ _ _ _ hsp1 hbound1 hsp2 hmono1
      · exact le_trans hmono1 hmono2
      · intro x hx
        rcases List.mem_append.mp hx with hx1 | hx2
        · exact le_trans (hbound1 x hx1) hmono2
        · exact hbound2 x hx2

/-- C7: for every sequence of `predict_mm` calls on the same
`GeminiGcpWrapper` instance, starting from any clock and
`time_of_last_request` state and under any pattern of attempt successes,
failures, and durations, no two consecutive remote requests are issued
less than `TIME_BETWEEN_REQUESTS = 15` seconds apart. -/
theorem gemini_pacing_invariant (calls : List (Nat → GeminiGcpWrapper.Attempt))
    (max_retry : Int) (s : GeminiGcpWrapper.State) :
    List.Chain' (fun a b => a + GeminiGcpWrapper.TIME_BETWEEN_REQUESTS ≤ b)
      (GeminiGcpWrapper.runCalls calls max_retry s).2 :=
  spacedFrom_chain s.time_of_last_request _
    (gemini_runCalls_spaced max_retry calls s).1

/-- Polling-loop lemma: if the first `m` polls miss the key and the
(m+1)-th finds a snapshot, with `m` below the budget, the loop returns
that snapshot after exactly `m + 1` polls. -/
theorem get_a11y_tree_loop_hit (polls : Nat → ExtrasResult) :
    ∀ (m i remaining : Nat) (f : Nat),
      (∀ t, t < m → polls (i + t) = .missingKey) →
      polls (i + m) = .available f → m < remaining →
      get_a11y_tree_loop polls i remaining = (.ok f, m + 1) := by
  intro m
  induction m with
  | zero =>
      intro i remaining f _ hav hlt
      obtain ⟨r, rfl⟩ : ∃ r, remaining = r + 1 := ⟨remaining - 1, by omega⟩
      simp only [get_a11y_tree_loop]
      rw [show i + 0 = i from rfl] at hav
      rw [hav]
  | succ n ih =>
      intro i remaining f hmiss hav hlt
      obtain ⟨r, rfl⟩ : ∃ r, remaining = r + 1 := ⟨remaining - 1, by omega⟩
      have h0 : polls i = .missingKey := by
        have := hmiss 0 (by omega)
        simpa using this
      simp only [get_a11y_tree_loop, h0]
      rw [ih (i + 1) r f
        (fun t ht => by
          have := hmiss (t + 1) (by omega)
          simpa [Nat.add_assoc, Nat.add_comm 1 t] using this)
        (by
          have : i + 1 + n = i + (n + 1) := by omega
          rw [this]
          exact hav)
        (by omega)]

/-- Polling-loop lemma: if every poll of the sequence misses the key,
the loop exhausts all `remaining` polls and raises `RuntimeError`. -/
theorem get_a11y_tree_loop_allMiss (polls : Nat → ExtrasResult) :
    ∀ (remaining i : Nat),
      (∀ t, t < remaining → polls (i + t) = .missingKey) →
      get_a11y_tree_loop polls i remaining = (.error .runtimeError, remaining) := by
  intro remaining
  induction remaining with
  | zero =>
      intro i _
      rfl
  | succ n ih =>
      intro i hmiss
      have h0 : polls i = .missingKey := by
        have := hmiss 0 (by omega)
        simpa using this
      simp only [get_a11y_tree_loop, h0]
      rw [ih (i + 1)
        (fun t ht => by
          have := hmiss (t + 1) (by omega)
          simpa [Nat.add_assoc, Nat.add_comm 1 t] using this)]

/-- Polling-loop lemma: if the first `m` polls miss the key and the
(m+1)-th finds the key present with an empty list, the `IndexError`
escapes at once: the loop stops after exactly `m + 1` polls with an
`IndexError`, performing no further retries. -/
theorem get_a11y_tree_loop_emptyList (polls : Nat → ExtrasResult) :
    ∀ (m i remaining : Nat),
      (∀ t, t < m → polls (i + t) = .missingKey) →
      polls (i + m) = .emptyList → m < remaining →
      get_a11y_tree_loop polls i remaining = (.error .indexError, m + 1) := by
  intro m
  induction m with
  | zero =>
      intro i remaining _ hav hlt
      obtain ⟨r, rfl⟩ : ∃ r, remaining = r + 1 := ⟨remaining - 1, by omega⟩
      simp only [get_a11y_tree_loop]
      rw [show i + 0 = i from rfl] at hav
      rw [hav]
  | succ n ih =>
      intro i remaining hmiss hav hlt
      obtain ⟨r, rfl⟩ : ∃ r, remaining = r + 1 := ⟨remaining - 1, by omega⟩
      have h0 : polls i = .missingKey := by
        have := hmiss 0 (by omega)
        simpa using this
      simp only [get_a11y_tree_loop, h0]
      rw [ih (i + 1) r
        (fun t ht => by
          have := hmiss (t + 1) (by omega)
          simpa [Nat.add_assoc, Nat.add_comm 1 t] using this)
        (by
          have : i + 1 + n = i + (n + 1) := by omega
          rw [this]
          exact hav)
        (by omega)]

/-- C5: observation capture behavior of `get_a11y_forest` with the
default budget N = 5.  If the extras buffer yields a snapshot on poll
attempt `j ≤ 5`, exactly `j` polls occur and no reconnect happens; if
all 5 polls miss, exactly one reconnect-and-full-retry cycle is
performed; and if the second polling sequence also exhausts its 5
attempts, the fatal `RuntimeError` propagates to the caller. -/
theorem capture_polling_and_reconnect (polls1 polls2 : Nat → ExtrasResult) :
    (∀ j f, 1 ≤ j → j ≤ 5 → (∀ t, t < j - 1 → polls1 t = .missingKey) →
        polls1 (j - 1) = .available f →
        get_a11y_forest polls1 polls2 = ⟨.ok f, j, false, 0⟩) ∧
    ((∀ t, t < 5 → polls1 t = .missingKey) →
        (get_a11y_forest polls1 polls2).reconnected = true ∧
        (get_a11y_forest polls1 polls2).polls_first = 5 ∧
        ((∀ t, t < 5 → polls2 t = .missingKey) →
          (get_a11y_forest polls1 polls2).result = .error .runtimeError ∧
          (get_a11y_forest polls1 polls2).polls_second = 5)) := by
  constructor
  · intro j f hj1 hj5 hmiss hav
    obtain ⟨m, rfl⟩ : ∃ m, j = m + 1 := ⟨j - 1, by omega⟩
    have hloop : get_a11y_tree_loop polls1 0 5 = (.ok f, m + 1) := by
      refine get_a11y_tree_loop_hit polls1 m 0 5 f ?_ ?_ (by omega)
      · intro t ht
        have := hmiss t (by omega)
        simpa using this
      · simpa using hav
    simp [get_a11y_forest, get_a11y_tree, hloop]
  · intro hmiss
    have hloop : get_a11y_tree_loop polls1 0 5 = (.error .runtimeError, 5) := by
      refine get_a11y_tree_loop_allMiss polls1 5 0 ?_
      intro t ht
      simpa using hmiss t ht
    refine ⟨?_, ?_, ?_⟩
    · simp [get_a11y_forest, get_a11y_tree, hloop]
    · simp [get_a11y_forest, get_a11y_tree, hloop]
    · intro hmiss2
      have hloop2 : get_a11y_tree_loop polls2 0 5 = (.error .runtimeError, 5) := by
        refine get_a11y_tree_loop_allMiss polls2 5 0 ?_
        intro t ht
        simpa using hmiss2 t ht
      constructor
      · simp [get_a11y_forest, get_a11y_tree, hloop, hloop2]
      · simp [get_a11y_forest, get_a11y_tree, hloop, hloop2]

/-- Witness for C5 at a concrete extras stream that misses twice and has
a snapshot on the third poll: the capture returns it after exactly 3
polls, with no reconnect. -/
theorem capture_polling_and_reconnect_witness :
    get_a11y_forest pollsHitThird pollsAllMiss = ⟨.ok 7, 3, false, 0⟩ :=
  (capture_polling_and_reconnect pollsHitThird pollsAllMiss).1 3 7
    (by decide) (by decide) (by decide) (by decide)

/-- C10: only the `RuntimeError` raised after a fully exhausted polling
sequence triggers the one-time reconnect.  If a poll finds the
`accessibility_tree` key present but holding an empty list, the
resulting `IndexError` is neither retried by the polling loop nor
followed by a reconnect: the capture stops at that poll and the
exception propagates to the caller. -/
theorem capture_index_error_propagates (polls1 polls2 : Nat → ExtrasResult)
    (m : Nat) (hm : m < 5) (hmiss : ∀ t, t < m → polls1 t = .missingKey)
    (hempty : polls1 m = .emptyList) :
    get_a11y_forest polls1 polls2 = ⟨.error .indexError, m + 1, false, 0⟩ := by
  have hloop : get_a11y_tree_loop polls1 0 5 = (.error .indexError, m + 1) := by
    refine get_a11y_tree_loop_emptyList polls1 m 0 5 ?_ ?_ hm
    · intro t ht
      simpa using hmiss t ht
    · simpa using hempty
  simp [get_a11y_forest, get_a11y_tree, hloop]

/-- Witness for C10 at a concrete extras stream whose second poll finds
the key with an empty list: the capture stops after 2 polls with the
`IndexError` and performs no reconnect. -/
theorem capture_index_error_propagates_witness :
    get_a11y_forest pollsEmptySecond pollsAllMiss = ⟨.error .indexError, 2, false, 0⟩ :=
  capture_index_error_propagates pollsEmptySecond pollsAllMiss 1
    (by decide) (by decide) (by decide)

/-- C4 counterexample: when the grounded action is the literal string
token, the code sets `action_type = 'wait'` but leaves the default empty
detail (`benchmark_run.py` lines 96-106), so the result is
`('wait', "")`, not `('wait', "No action has been taken.")` as the claim
states for that case. -/
theorem normalize_action_strToken_counterexample :
    normalize_action (.strToken "wait") [] = some ⟨"wait", "string", .str ""⟩ ∧
    normalize_action (.strToken "wait") [] ≠
      some ⟨"wait", "string", .str "No action has been taken."⟩ := by
  constructor
  · rfl
  · decide

/-- C4 (amended): action normalization is a total, deterministic function
of the grounded action: on well-formed coordinate data, every structured
action normalizes to exactly one `(type, detail)` shape, keeping its tag
when it is one of the eleven recognized tags and falling back to
`('wait', "No action has been taken.")` for every unrecognized tag
(including `answer` and `unknown`); a grounded action that is the literal
string token normalizes to `('wait', "")`, with the default empty detail
rather than the "no action taken" detail. -/
theorem normalize_action_total (t text app dir : String) (c1 c2 c3 c4 : Int) :
    (∀ s : String,
        normalize_action (.strToken s) [c1, c2, c3, c4] =
          some ⟨"wait", "string", .str ""⟩) ∧
    normalize_action (.structured "click" text app dir) [c1, c2, c3, c4] =
      some ⟨"click", "coordinates", .coords [c1, c2, c3, c4]⟩ ∧
    normalize_action (.structured "double_tap" text app dir) [c1, c2, c3, c4] =
      some ⟨"double_tap", "coordinates", .coords [c1, c2, c3, c4]⟩ ∧
    normalize_action (.structured "input_text" text app dir) [c1, c2, c3, c4] =
      some ⟨"input_text", "string",
        .str ("The text \"" ++ text ++ "\" has been inputted.")⟩ ∧
    normalize_action (.structured "keyboard_enter" text app dir) [c1, c2, c3, c4] =
      some ⟨"keyboard_enter", "string", .str ""⟩ ∧
    normalize_action (.structured "long_press" text app dir) [c1, c2, c3, c4] =
      some ⟨"long_press", "coordinates", .coords [c1, c2, c3, c4]⟩ ∧
    normalize_action (.structured "navigate_back" text app dir) [c1, c2, c3, c4] =
      some ⟨"navigate_back", "string", .str "Back to the previous page."⟩ ∧
    normalize_action (.structured "navigate_home" text app dir) [c1, c2, c3, c4] =
      some ⟨"navigate_home", "string", .str "Return to home page."⟩ ∧
    normalize_action (.structured "open_app" text app dir) [c1, c2, c3, c4] =
      some ⟨"open_app", "string", .str app⟩ ∧
    normalize_action (.structured "scroll" text app dir) [c1, c2, c3, c4] =
      some ⟨"scroll", "string",
        .str ("The coordinates (" ++ toString c1 ++ "," ++ toString c2
          ++ ") have been swiped to the " ++ dir ++ ".")⟩ ∧
    normalize_action (.structured "status" text app dir) [c1, c2, c3, c4] =
      some ⟨"status", "string", .str "Task completed."⟩ ∧
    normalize_action (.structured "swipe" text app dir) [c1, c2, c3, c4] =
      some ⟨"swipe", "string",
        .str ("The swipe action has been performed starting from coordinates ("
          ++ toString c1 ++ "," ++ toString c2 ++ ") to ("
          ++ toString c3 ++ "," ++ toString c4 ++ ").")⟩ ∧
    (t ∉ recognizedTags →
        normalize_action (.structured t text app dir) [c1, c2, c3, c4] =
          some ⟨"wait", "string", .str "No action has been taken."⟩) := by
  refine ⟨fun s => rfl, rfl, rfl, rfl, rfl, rfl, rfl, rfl, rfl, rfl, rfl, rfl, ?_⟩
  intro hmem
  simp only [recognizedTags, List.mem_cons, List.not_mem_nil, or_false] at hmem
  push_neg at hmem
  obtain ⟨n1, n2, n3, n4, n5, n6, n7, n8, n9, n10, n11⟩ := hmem
  simp [normalize_action, n1, n2, n3, n4, n5, n6, n7, n8, n9, n10, n11]

/-- Witness for C4 at the unrecognized tag `answer` with well-formed
coordinates: normalization falls back to the fixed wait detail. -/
theorem normalize_action_total_witness :
    normalize_action (.structured "answer" "" "" "") [1, 2, 3, 4] =
      some ⟨"wait", "string", .str "No action has been taken."⟩ := by
  have h := normalize_action_total "answer" "" "" "" 1 2 3 4
  exact h.2.2.2.2.2.2.2.2.2.2.2.2 (by decide)

/-- C1: evaluation of the claim's end-to-end scenario — `max_rounds = 3`,
no step raises, and the decision signals completion on step 2.  As the
claim states, the log contains exactly 2 step entries followed by exactly
1 summary entry, `finish_signal = 1`, and the exit code is 0; but the
summary records `total_steps = action_cnt - 1 = 1`, not 2, even though 2
steps completed and were logged (`benchmark_run.py` line 169) — the
summary contradicts the very step entries written next to it. -/
theorem run_done_at_2_evaluation :
    run_benchmark behDoneAt2 3 =
      ⟨[.step 1 11 5 waitAction, .step 2 7 3 waitAction, .summary 1 1 18 8],
        0, 0, true, 2⟩ := by
  decide

/-- Loop characterization for the exit-code analysis: starting from a
state with no error recorded and no completion signal, the final
`error_code`, `is_done`, and `action_cnt` are determined by the first
stopping event among the remaining steps. -/
theorem step_loop_first_stop (beh : Nat → StepOutcome) :
    ∀ (remaining cnt : Nat) (s : RunState), s.error_code = 0 → s.is_done = false →
      (match first_stop beh remaining cnt with
       | some (i, .stepError) =>
           (step_loop beh remaining cnt s).error_code = 2 ∧
           (step_loop beh remaining cnt s).is_done = false ∧
           (step_loop beh remaining cnt s).action_cnt = i
       | some (i, .logError) =>
           (step_loop beh remaining cnt s).error_code = 1 ∧
           (step_loop beh remaining cnt s).is_done = false ∧
           (step_loop beh remaining cnt s).action_cnt = i
       | some (i, .ok _ _ _ _) =>
           (step_loop beh remaining cnt s).error_code = 0 ∧
           (step_loop beh remaining cnt s).is_done = true ∧
           (step_loop beh remaining cnt s).action_cnt = i
       | none =>
           (step_loop beh remaining cnt s).error_code = 0 ∧
           (step_loop beh remaining cnt s).is_done = false ∧
           (step_loop beh remaining cnt s).action_cnt =
             if remaining = 0 then s.action_cnt else cnt + remaining - 1) := by
  intro remaining
  induction remaining with
  | zero =>
      intro cnt s h0 hd
      exact ⟨h0, hd, by simp [step_loop]⟩
  | succ n ih =>
      intro cnt s h0 hd
      cases hbeh : beh cnt with
      | stepError =>
          simp only [first_stop, step_loop, hbeh]
          exact ⟨by trivial, hd, by trivial⟩
      | logError =>
          simp only [first_stop, step_loop, hbeh]
          exact ⟨by trivial, hd, by trivial⟩
      | ok d pt ct a =>
          cases d with
          | true =>
              simp only [first_stop, step_loop, hbeh, if_true]
              exact ⟨h0, by trivial, by trivial⟩
          | false =>
              have ih' := ih (cnt + 1)
                ⟨s.is_done, s.error_code,
                  s.benchmark_log ++ [.step cnt pt ct a],
                  s.total_prompt_tokens + pt, s.total_completion_tokens + ct, cnt⟩
                h0 hd
              simp only [first_stop, step_loop, hbeh, Bool.false_eq_true, if_false]
              rcases hfs : first_stop beh n (cnt + 1) with _ | ⟨i, o⟩
              · rw [hfs] at ih'
                obtain ⟨e1, e2, e3⟩ := ih'
                refine ⟨e1, e2, ?_⟩
                rw [e3]
                rcases n with _ | n
                · simp
                · simp
                  omega
              · rw [hfs] at ih'
                cases o <;> exact ih'

/-- C3 (amended): the process exit code is 2 when an agent-step call
raised; 0 when the agent signalled completion; and, when neither
happened, 4 when the loop stopped at step index `max_rounds` — whether by
running out of rounds or by a log-handling exception at that last index —
and 1 when a log-handling exception occurred at a step index strictly
below `max_rounds`.  In particular a log-handling error does **not**
yield exit code 1 regardless of its step index: at index `max_rounds`
the recorded `error_code = 1` is never consulted and the exit code is 4
(see the counterexample). -/
theorem run_benchmark_exit_codes (beh : Nat → StepOutcome) (max_rounds : Nat)
    (h : 1 ≤ max_rounds) :
    (run_benchmark beh max_rounds).exit_code =
      match first_stop beh max_rounds 1 with
      | some (_, .stepError) => 2
      | some (i, .logError) => if i = max_rounds then 4 else 1
      | some (_, .ok _ _ _ _) => 0
      | none => 4 := by
  have hs := step_loop_first_stop beh max_rounds 1 initState rfl rfl
  rcases hfs : first_stop beh max_rounds 1 with _ | ⟨i, o⟩
  · rw [hfs] at hs
    obtain ⟨e1, e2, e3⟩ := hs
    have hmr : (if max_rounds = 0 then initState.action_cnt else 1 + max_rounds - 1)
        = max_rounds := by
      rcases max_rounds with _ | m
      · omega
      · simp
    rw [hmr] at e3
    simp [run_benchmark, e1, e2, e3]
  · rw [hfs] at hs
    cases o with
    | stepError =>
        obtain ⟨e1, e2, e3⟩ := hs
        simp [run_benchmark, e1, e2, e3]
    | logError =>
        obtain ⟨e1, e2, e3⟩ := hs
        simp [run_benchmark, e1, e2, e3]
    | ok d pt ct a =>
        obtain ⟨e1, e2, e3⟩ := hs
        simp [run_benchmark, e1, e2, e3]

/-- C3 counterexample: with `max_rounds = 1` and a log-handling exception
at step 1, the run records `error_code = 1` (a log-handling error
occurred) yet exits with code 4, because `benchmark_run.py` lines 177-188
never consult `error_code = 1` and the `action_cnt == max_rounds` test
fires first. -/
theorem run_log_error_at_max_counterexample :
    (run_benchmark behLogError 1).error_code = 1 ∧
    (run_benchmark behLogError 1).exit_code = 4 := by
  decide

/-- Witness for C3 at `max_rounds = 2` with a log-handling exception at
step 1 (an index below `max_rounds`): exit code 1. -/
theorem run_benchmark_exit_codes_witness :
    (run_benchmark behLogError 2).exit_code = 1 := by
  have h := run_benchmark_exit_codes behLogError 2 (by decide)
  exact h.trans (by decide)

/-- Log-shape lemma for the step loop: from any state, the loop appends
the step entries of some prefix of consecutively completed steps, and
accumulates exactly their token counts into the totals. -/
theorem step_loop_log_shape (beh : Nat → StepOutcome) :
    ∀ (remaining cnt : Nat) (s : RunState),
      ∃ k, k ≤ remaining ∧
        (∀ j, j < k → (beh (cnt + j)).isOk = true) ∧
        (step_loop beh remaining cnt s).benchmark_log =
          s.benchmark_log ++ (List.range k).map (fun j => mk_step_entry beh (cnt + j)) ∧
        (step_loop beh remaining cnt s).total_prompt_tokens =
          s.total_prompt_tokens + ((List.range k).map (fun j => step_pt beh (cnt + j))).sum ∧
        (step_loop beh remaining cnt s).total_completion_tokens =
          s.total_completion_tokens + ((List.range k).map (fun j => step_ct beh (cnt + j))).sum := by
  intro remaining
  induction remaining with
  | zero =>
      intro cnt s
      exact ⟨0, Nat.le_refl 0, by simp, by simp [step_loop], by simp [step_loop],
        by simp [step_loop]⟩
  | succ n ih =>
      intro cnt s
      cases hbeh : beh cnt with
      | stepError =>
          refine ⟨0, by omega, by simp, ?_, ?_, ?_⟩ <;> simp [step_loop, hbeh]
      | logError =>
          refine ⟨0, by omega, by simp, ?_, ?_, ?_⟩ <;> simp [step_loop, hbeh]
      | ok d pt ct a =>
          cases d with
          | true =>
              refine ⟨1, by omega, ?_, ?_, ?_, ?_⟩
              · intro j hj
                have hj0 : j = 0 := by omega
                subst hj0
                simp [StepOutcome.isOk, hbeh]
              · simp [step_loop, hbeh, mk_step_entry, List.range_succ]
              · simp [step_loop, hbeh, step_pt, List.range_succ]
              · simp [step_loop, hbeh, step_ct, List.range_succ]
          | false =>
              obtain ⟨k, hk, hok, hlog, hpt, hct⟩ := ih (cnt + 1)
                ⟨s.is_done, s.error_code,
                  s.benchmark_log ++ [.step cnt pt ct a],
                  s.total_prompt_tokens + pt, s.total_completion_tokens + ct, cnt⟩
              refine ⟨k + 1, by omega, ?_, ?_, ?_, ?_⟩
              · intro j hj
                rcases j with _ | j
                · simp [StepOutcome.isOk, hbeh]
                · have := hok j (by omega)
                  rw [show cnt + 1 + j = cnt + (j + 1) from by omega] at this
                  exact this
              · have hfun : (fun j => mk_step_entry beh (cnt + 1 + j)) =
                    fun j => mk_step_entry beh (cnt + (j + 1)) := by
                  funext j
                  rw [show cnt + 1 + j = cnt + (j + 1) from by omega]
                simp only [step_loop, hbeh, Bool.false_eq_true, if_false]
                rw [hlog]
                simp only [List.range_succ_eq_map, List.map_cons, List.map_map]
                have hz : mk_step_entry beh (cnt + 0) = LogEntry.step cnt pt ct a := by
                  simp [mk_step_entry, hbeh]
                rw [hz]
                simp [List.append_assoc, Function.comp_def, hfun]
              · have hfun : (fun j => step_pt beh (cnt + 1 + j)) =
                    fun j => step_pt beh (cnt + (j + 1)) := by
                  funext j
                  rw [show cnt + 1 + j = cnt + (j + 1) from by omega]
                simp only [step_loop, hbeh, Bool.false_eq_true, if_false]
                rw [hpt]
                simp only [List.range_succ_eq_map, List.map_cons, List.map_map, List.sum_cons]
                have hz : step_pt beh (cnt + 0) = pt := by
                  simp [step_pt, hbeh]
                rw [hz]
                simp [Function.comp_def, hfun]
                omega
              · have hfun : (fun j => step_ct beh (cnt + 1 + j)) =
                    fun j => step_ct beh (cnt + (j + 1)) := by
                  funext j
                  rw [show cnt + 1 + j = cnt + (j + 1) from by omega]
                simp only [step_loop, hbeh, Bool.false_eq_true, if_false]
                rw [hct]
                simp only [List.range_succ_eq_map, List.map_cons, List.map_map, List.sum_cons]
                have hz : step_ct beh (cnt + 0) = ct := by
                  simp [step_ct, hbeh]
                rw [hz]
                simp [Function.comp_def, hfun]
                omega

/-- C8: on every exit path of the episode loop — completion, max-rounds
exhaustion, an agent-step exception, or a log-handling exception — the
single written log consists of the step entries of the `k` steps that
completed (consecutively indexed from 1), followed by exactly one
trailing summary entry whose `finish_signal` is 1 exactly when completion
was signalled, whose token totals are the sums over the logged steps, and
whose `total_steps` field is `action_cnt - 1` for the final value of the
loop index — the actual stopping point. -/
theorem run_benchmark_log_shape (beh : Nat → StepOutcome) (max_rounds : Nat)
    (h : 1 ≤ max_rounds) :
    ∃ k, k ≤ max_rounds ∧
      (∀ j, 1 ≤ j → j ≤ k → (beh j).isOk = true) ∧
      (run_benchmark beh max_rounds).benchmark_log =
        (List.range k).map (fun j => mk_step_entry beh (j + 1)) ++
          [LogEntry.summary ((run_benchmark beh max_rounds).final_action_cnt - 1)
            (if (run_benchmark beh max_rounds).is_done then 1 else 0)
            (((List.range k).map (fun j => step_pt beh (j + 1))).sum)
            (((List.range k).map (fun j => step_ct beh (j + 1))).sum)] := by
  obtain ⟨k, hk, hok, hlog, hpt, hct⟩ := step_loop_log_shape beh max_rounds 1 initState
  refine ⟨k, hk, ?_, ?_⟩
  · intro j h1 h2
    have hj := hok (j - 1) (by omega)
    rw [show 1 + (j - 1) = j from by omega] at hj
    exact hj
  · have hfun1 : (fun j => mk_step_entry beh (1 + j)) =
        fun j => mk_step_entry beh (j + 1) := by
      funext j
      rw [Nat.add_comm 1 j]
    have hfun2 : (fun j => step_pt beh (1 + j)) = fun j => step_pt beh (j + 1) := by
      funext j
      rw [Nat.add_comm 1 j]
    have hfun3 : (fun j => step_ct beh (1 + j)) = fun j => step_ct beh (j + 1) := by
      funext j
      rw [Nat.add_comm 1 j]
    rw [hfun1] at hlog
    rw [hfun2] at hpt
    rw [hfun3] at hct
    simp only [run_benchmark, initState] at hlog hpt hct ⊢
    rw [hlog, hpt, hct]
    simp

/-- Witness for C8 at `max_rounds = 2` with an agent that completes every
step without signalling done: the log is the two step entries followed by
the summary. -/
theorem run_benchmark_log_shape_witness :
    ∃ k, k ≤ 2 ∧
      (∀ j, 1 ≤ j → j ≤ k → (behNeverDone j).isOk = true) ∧
      (run_benchmark behNeverDone 2).benchmark_log =
        (List.range k).map (fun j => mk_step_entry behNeverDone (j + 1)) ++
          [LogEntry.summary ((run_benchmark behNeverDone 2).final_action_cnt - 1)
            (if (run_benchmark behNeverDone 2).is_done then 1 else 0)
            (((List.range k).map (fun j => step_pt behNeverDone (j + 1))).sum)
            (((List.range k).map (fun j => step_ct behNeverDone (j + 1))).sum)] :=
  run_benchmark_log_shape behNeverDone 2 (by decide)
